import Mathlib

/-!
Shallow embedding of `src/src/config.py` (OpenEdu MCP configuration loader).

Python values flowing through the loader (YAML data, env-derived overrides,
dataclass fields) are modelled by the dynamic `Value` type.  Python dicts are
modelled as association lists with first-match lookup; all dicts arising in
the program have unique keys.  Machine-level concerns do not arise: Python
ints are unbounded (`Int`), and the two float literals in the source (`2.0`,
`0.7`) are only stored and compared, never computed with, so they are carried
as exact rationals.

Fallible Python code (TypeError / AttributeError raised by dataclass
construction, ValueError from `int()` — the spec calls the latter
CoercionError) is modelled with `Except LoadError`.
-/

/-- A dynamic Python value as it appears in the loader: YAML scalars,
lists, and string-keyed dicts. -/
inductive Value where
  | none
  | bool (b : Bool)
  | int (n : Int)
  | float (q : Rat)
  | str (s : String)
  | list (xs : List Value)
  | dict (d : List (String × Value))

/-- A Python dict with string keys, as an association list (unique keys in
every dict the program builds; lookup is first-match). -/
abbrev Dict := List (String × Value)

/-- The process environment: a finite map from variable names to string
values, modelling `os.environ` (`os.getenv` returns `none` when unset). -/
abbrev Env := List (String × String)

/-- `d.get(k)` on a Python dict (returning `None` when absent): first-match
lookup in the association list. -/
def dget : Dict → String → Option Value
  | [], _ => Option.none
  | (k', v) :: d, k => if k' = k then some v else dget d k

/-- `d.get(k, default)` on a Python dict. -/
def dgetD (d : Dict) (k : String) (dflt : Value) : Value :=
  (dget d k).getD dflt

/-- `d[k] = v` on a Python dict: update the first matching key in place,
or append the binding when the key is absent. -/
def dset : Dict → String → Value → Dict
  | [], k, v => [(k, v)]
  | (k', v') :: d, k, v => if k' = k then (k', v) :: d else (k', v') :: dset d k v

/-- The keys of a dict, in order. -/
def dkeys (d : Dict) : List String := d.map Prod.fst

/-- `os.getenv(name)`: first-match lookup in the environment. -/
def eget : Env → String → Option String
  | [], _ => Option.none
  | (k', v) :: e, k => if k' = k then some v else eget e k

/-- The string value of an environment variable that is known to be set
(used only under a truthiness guard in the source). -/
def egetS (env : Env) (k : String) : String :=
  (eget env k).getD ""

/-- Python truthiness of `os.getenv(...)` (an `Optional[str]`): `None` and
the empty string are falsy, every other string is truthy.  This is the
guard `if os.getenv(X):` used throughout `_get_env_overrides`. -/
def truthy : Option String → Bool
  | Option.none => false
  | some s => s ≠ ""

/-- `str.lower()` as used on the DEBUG variable (ASCII lowering; the value
compared against is the ASCII literal "true"). -/
def pyLower (s : String) : String := String.mk (s.data.map Char.toLower)

/-- The whitespace characters stripped by Python `int(str)`. -/
def pySpace (c : Char) : Bool :=
  c = ' ' || c = '\t' || c = '\n' || c = '\r' || c = '\x0b' || c = '\x0c'

/-- `str.strip()`-style whitespace removal performed by `int(str)` before
parsing. -/
def pyStrip (s : String) : List Char :=
  ((s.data.dropWhile pySpace).reverse.dropWhile pySpace).reverse

/-- Digit-string parsing of Python `int(str)` after sign removal: one or
more decimal digits, with single underscores allowed only between digits. -/
def pyDigitsGo (acc : Nat) : List Char → Option Nat
  | [] => some acc
  | '_' :: c :: rest =>
      if c.isDigit then pyDigitsGo (acc * 10 + (c.toNat - 48)) rest else Option.none
  | ['_'] => Option.none
  | c :: rest =>
      if c.isDigit then pyDigitsGo (acc * 10 + (c.toNat - 48)) rest else Option.none

/-- Parse a nonempty digit run (with underscore rules) as a natural. -/
def pyDigits : List Char → Option Nat
  | [] => Option.none
  | c :: rest => if c.isDigit then pyDigitsGo (c.toNat - 48) rest else Option.none

/-- Python `int(s)` on a string: strip surrounding whitespace, optional
sign, then digits; `Option.none` models the ValueError raised on anything
else. -/
def pyInt? (s : String) : Option Int :=
  match pyStrip s with
  | '+' :: rest => (pyDigits rest).map Int.ofNat
  | '-' :: rest => (pyDigits rest).map (fun n => -(n : Int))
  | t => (pyDigits t).map Int.ofNat

/-- `isinstance(v, dict)`, returning the underlying dict when it is one. -/
def Value.asDict : Value → Option Dict
  | Value.dict d => some d
  | _ => Option.none

mutual

/-- `_merge_configs(base, override)`: `result = base.copy()`, then one
`mergeKey` application per `key, value` of `override.items()`, threading
the evolving `result`. -/
def mergeConfigs (base : Dict) : Dict → Dict
  | [] => base
  | (k, v) :: rest => mergeConfigs (mergeKey base k v) rest

/-- The body of the merge loop for one `key, value` pair:
`if key in result and isinstance(result[key], dict) and isinstance(value, dict):
result[key] = _merge_configs(result[key], value) else: result[key] = value`. -/
def mergeKey (base : Dict) (k : String) : Value → Dict
  | Value.dict od =>
    (match dget base k with
     | some (Value.dict bd) => dset base k (Value.dict (mergeConfigs bd od))
     | _ => dset base k (Value.dict od))
  | v => dset base k v

end

/-! ## The configuration schema

Dataclass fields are dynamically typed in Python (construction performs no
type check), so every field is a `Value`.  The per-field defaults recorded
in each `mk…` constructor are the dataclass field defaults from the source.
-/

/-- `ServerConfig` dataclass. -/
structure ServerConfig where
  name : Value
  version : Value
  host : Value
  port : Value
  log_level : Value
  debug : Value

/-- `CacheConfig` dataclass. -/
structure CacheConfig where
  database_path : Value
  default_ttl : Value
  max_size_mb : Value
  cleanup_interval : Value
  enable_compression : Value

/-- `APIConfig` dataclass (`base_url`, `rate_limit`, `timeout` have no
defaults and are required). -/
structure APIConfig where
  base_url : Value
  rate_limit : Value
  timeout : Value
  retry_attempts : Value
  backoff_factor : Value

/-- `APIsConfig` dataclass: one `APIConfig` per external service. -/
structure APIsConfig where
  open_library : APIConfig
  wikipedia : APIConfig
  dictionary : APIConfig
  arxiv : APIConfig

/-- `ContentFilters` dataclass. -/
structure ContentFilters where
  enable_age_appropriate : Value
  enable_curriculum_alignment : Value
  min_educational_relevance : Value

/-- `EducationConfig` dataclass. -/
structure EducationConfig where
  grade_levels : Value
  curriculum_standards : Value
  subjects : Value
  content_filters : ContentFilters

/-- `LoggingConfig` dataclass. -/
structure LoggingConfig where
  level : Value
  format : Value
  file_path : Value
  max_file_size_mb : Value
  backup_count : Value

/-- `MonitoringConfig` dataclass. -/
structure MonitoringConfig where
  enable_metrics : Value
  metrics_port : Value
  health_check_interval : Value

/-- `Config` dataclass (the root). -/
structure Config where
  server : ServerConfig
  cache : CacheConfig
  apis : APIsConfig
  education : EducationConfig
  logging : LoggingConfig
  monitoring : MonitoringConfig

/-- Errors the loader can raise.  `typeError` and `attributeError` model
Python's TypeError / AttributeError from dataclass construction and from
calling `.get` on a non-dict; `coercionError` models the ValueError raised
by `int()` on an unparseable string (the spec's CoercionError). -/
inductive LoadError where
  | typeError (msg : String)
  | attributeError (msg : String)
  | coercionError (var val : String)

/-- `SomeDataclass(**v)`: the spread argument must be a mapping. -/
def asKwargs : Value → Except LoadError Dict
  | Value.dict d => Except.ok d
  | _ => Except.error (LoadError.typeError "argument after ** must be a mapping")

/-- `v.get(...)` on a value expected to be a dict: AttributeError when it
is anything else. -/
def asAttrDict : Value → Except LoadError Dict
  | Value.dict d => Except.ok d
  | _ => Except.error (LoadError.attributeError "object has no attribute get")

/-- The field names of `ServerConfig`. -/
def serverFields : List String :=
  ["name", "version", "host", "port", "log_level", "debug"]

/-- `ServerConfig(**kw)`: reject unknown keyword arguments, default the
absent fields. -/
def mkServerConfig (kw : Dict) : Except LoadError ServerConfig :=
  if kw.all (fun p => serverFields.contains p.1) then
    Except.ok
      { name := dgetD kw "name" (Value.str "openedu-mcp-server")
        version := dgetD kw "version" (Value.str "1.0.0")
        host := dgetD kw "host" (Value.str "localhost")
        port := dgetD kw "port" (Value.int 8000)
        log_level := dgetD kw "log_level" (Value.str "INFO")
        debug := dgetD kw "debug" (Value.bool false) }
  else Except.error (LoadError.typeError "ServerConfig got an unexpected keyword argument")

/-- The field names of `CacheConfig`. -/
def cacheFields : List String :=
  ["database_path", "default_ttl", "max_size_mb", "cleanup_interval", "enable_compression"]

/-- `CacheConfig(**kw)`. -/
def mkCacheConfig (kw : Dict) : Except LoadError CacheConfig :=
  if kw.all (fun p => cacheFields.contains p.1) then
    Except.ok
      { database_path := dgetD kw "database_path" (Value.str "~/.openedu-mcp/cache.db")
        default_ttl := dgetD kw "default_ttl" (Value.int 3600)
        max_size_mb := dgetD kw "max_size_mb" (Value.int 100)
        cleanup_interval := dgetD kw "cleanup_interval" (Value.int 3600)
        enable_compression := dgetD kw "enable_compression" (Value.bool true) }
  else Except.error (LoadError.typeError "CacheConfig got an unexpected keyword argument")

/-- The field names of `APIConfig`. -/
def apiFields : List String :=
  ["base_url", "rate_limit", "timeout", "retry_attempts", "backoff_factor"]

/-- `APIConfig(**kw)`: `base_url`, `rate_limit` and `timeout` are required
positional-or-keyword arguments with no default, so their absence raises
TypeError. -/
def mkAPIConfig (kw : Dict) : Except LoadError APIConfig :=
  if kw.all (fun p => apiFields.contains p.1) then
    match dget kw "base_url", dget kw "rate_limit", dget kw "timeout" with
    | some b, some r, some t =>
        Except.ok
          { base_url := b
            rate_limit := r
            timeout := t
            retry_attempts := dgetD kw "retry_attempts" (Value.int 3)
            backoff_factor := dgetD kw "backoff_factor" (Value.float 2) }
    | _, _, _ => Except.error (LoadError.typeError "APIConfig missing required positional arguments")
  else Except.error (LoadError.typeError "APIConfig got an unexpected keyword argument")

/-- The field names of `ContentFilters`. -/
def contentFilterFields : List String :=
  ["enable_age_appropriate", "enable_curriculum_alignment", "min_educational_relevance"]

/-- `ContentFilters(**kw)`. -/
def mkContentFilters (kw : Dict) : Except LoadError ContentFilters :=
  if kw.all (fun p => contentFilterFields.contains p.1) then
    Except.ok
      { enable_age_appropriate := dgetD kw "enable_age_appropriate" (Value.bool true)
        enable_curriculum_alignment := dgetD kw "enable_curriculum_alignment" (Value.bool true)
        min_educational_relevance := dgetD kw "min_educational_relevance" (Value.float (7 / 10)) }
  else Except.error (LoadError.typeError "ContentFilters got an unexpected keyword argument")

/-- The field names of `LoggingConfig`. -/
def loggingFields : List String :=
  ["level", "format", "file_path", "max_file_size_mb", "backup_count"]

/-- `LoggingConfig(**kw)`. -/
def mkLoggingConfig (kw : Dict) : Except LoadError LoggingConfig :=
  if kw.all (fun p => loggingFields.contains p.1) then
    Except.ok
      { level := dgetD kw "level" (Value.str "INFO")
        format := dgetD kw "format" (Value.str "json")
        file_path := dgetD kw "file_path" (Value.str "~/.openedu-mcp/logs/server.log")
        max_file_size_mb := dgetD kw "max_file_size_mb" (Value.int 10)
        backup_count := dgetD kw "backup_count" (Value.int 5) }
  else Except.error (LoadError.typeError "LoggingConfig got an unexpected keyword argument")

/-- The field names of `MonitoringConfig`. -/
def monitoringFields : List String :=
  ["enable_metrics", "metrics_port", "health_check_interval"]

/-- `MonitoringConfig(**kw)`. -/
def mkMonitoringConfig (kw : Dict) : Except LoadError MonitoringConfig :=
  if kw.all (fun p => monitoringFields.contains p.1) then
    Except.ok
      { enable_metrics := dgetD kw "enable_metrics" (Value.bool true)
        metrics_port := dgetD kw "metrics_port" (Value.int 9090)
        health_check_interval := dgetD kw "health_check_interval" (Value.int 60) }
  else Except.error (LoadError.typeError "MonitoringConfig got an unexpected keyword argument")

/-- The fixed seed default lists declared by `EducationConfig`'s dataclass
field factories (bypassed by `Config.from_dict`). -/
def defaultGradeLevels : List Value :=
  [Value.str "K-2", Value.str "3-5", Value.str "6-8", Value.str "9-12", Value.str "College"]

/-- Seed default for `curriculum_standards`. -/
def defaultCurriculumStandards : List Value :=
  [Value.str "Common Core", Value.str "NGSS", Value.str "State Standards"]

/-- Seed default for `subjects`. -/
def defaultSubjects : List Value :=
  [Value.str "Mathematics", Value.str "Science", Value.str "English Language Arts",
   Value.str "Social Studies", Value.str "Arts", Value.str "Physical Education",
   Value.str "Technology"]

/-- `Config.from_dict(data)`, with the same left-to-right argument
evaluation (and hence error) order as the source: server, cache, the four
api services, education (whose lists default to the literal `[]` passed as
the `.get` fallback), logging, monitoring. -/
def fromDict (data : Dict) : Except LoadError Config :=
  Except.bind (asKwargs (dgetD data "server" (Value.dict []))) fun skw =>
  Except.bind (mkServerConfig skw) fun server =>
  Except.bind (asKwargs (dgetD data "cache" (Value.dict []))) fun ckw =>
  Except.bind (mkCacheConfig ckw) fun cache =>
  Except.bind (asAttrDict (dgetD data "apis" (Value.dict []))) fun apisD =>
  Except.bind (asKwargs (dgetD apisD "open_library" (Value.dict []))) fun olkw =>
  Except.bind (mkAPIConfig olkw) fun open_library =>
  Except.bind (asKwargs (dgetD apisD "wikipedia" (Value.dict []))) fun wkw =>
  Except.bind (mkAPIConfig wkw) fun wikipedia =>
  Except.bind (asKwargs (dgetD apisD "dictionary" (Value.dict []))) fun dkw =>
  Except.bind (mkAPIConfig dkw) fun dictionary =>
  Except.bind (asKwargs (dgetD apisD "arxiv" (Value.dict []))) fun axkw =>
  Except.bind (mkAPIConfig axkw) fun arxiv =>
  Except.bind (asAttrDict (dgetD data "education" (Value.dict []))) fun eduD =>
  Except.bind (asKwargs (dgetD eduD "content_filters" (Value.dict []))) fun cfkw =>
  Except.bind (mkContentFilters cfkw) fun cf =>
  Except.bind (asKwargs (dgetD data "logging" (Value.dict []))) fun lkw =>
  Except.bind (mkLoggingConfig lkw) fun logging =>
  Except.bind (asKwargs (dgetD data "monitoring" (Value.dict []))) fun mkw =>
  Except.bind (mkMonitoringConfig mkw) fun monitoring =>
  Except.ok
    { server := server
      cache := cache
      apis :=
        { open_library := open_library
          wikipedia := wikipedia
          dictionary := dictionary
          arxiv := arxiv }
      education :=
        { grade_levels := dgetD eduD "grade_levels" (Value.list [])
          curriculum_standards := dgetD eduD "curriculum_standards" (Value.list [])
          subjects := dgetD eduD "subjects" (Value.list [])
          content_filters := cf }
      logging := logging
      monitoring := monitoring }

/-- `self.server.__dict__` and friends: a section back to a dict, fields in
declaration order. -/
def ServerConfig.toD (s : ServerConfig) : Dict :=
  [("name", s.name), ("version", s.version), ("host", s.host), ("port", s.port),
   ("log_level", s.log_level), ("debug", s.debug)]

/-- `CacheConfig` as a dict. -/
def CacheConfig.toD (c : CacheConfig) : Dict :=
  [("database_path", c.database_path), ("default_ttl", c.default_ttl),
   ("max_size_mb", c.max_size_mb), ("cleanup_interval", c.cleanup_interval),
   ("enable_compression", c.enable_compression)]

/-- `APIConfig` as a dict. -/
def APIConfig.toD (a : APIConfig) : Dict :=
  [("base_url", a.base_url), ("rate_limit", a.rate_limit), ("timeout", a.timeout),
   ("retry_attempts", a.retry_attempts), ("backoff_factor", a.backoff_factor)]

/-- `ContentFilters` as a dict. -/
def ContentFilters.toD (f : ContentFilters) : Dict :=
  [("enable_age_appropriate", f.enable_age_appropriate),
   ("enable_curriculum_alignment", f.enable_curriculum_alignment),
   ("min_educational_relevance", f.min_educational_relevance)]

/-- `LoggingConfig` as a dict. -/
def LoggingConfig.toD (l : LoggingConfig) : Dict :=
  [("level", l.level), ("format", l.format), ("file_path", l.file_path),
   ("max_file_size_mb", l.max_file_size_mb), ("backup_count", l.backup_count)]

/-- `MonitoringConfig` as a dict. -/
def MonitoringConfig.toD (m : MonitoringConfig) : Dict :=
  [("enable_metrics", m.enable_metrics), ("metrics_port", m.metrics_port),
   ("health_check_interval", m.health_check_interval)]

/-- `Config.to_dict(self)`: the nested plain mapping built by the source. -/
def toDict (c : Config) : Dict :=
  [("server", Value.dict c.server.toD),
   ("cache", Value.dict c.cache.toD),
   ("apis", Value.dict
     [("open_library", Value.dict c.apis.open_library.toD),
      ("wikipedia", Value.dict c.apis.wikipedia.toD),
      ("dictionary", Value.dict c.apis.dictionary.toD),
      ("arxiv", Value.dict c.apis.arxiv.toD)]),
   ("education", Value.dict
     [("grade_levels", c.education.grade_levels),
      ("curriculum_standards", c.education.curriculum_standards),
      ("subjects", c.education.subjects),
      ("content_filters", Value.dict c.education.content_filters.toD)]),
   ("logging", Value.dict c.logging.toD),
   ("monitoring", Value.dict c.monitoring.toD)]

/-! ## Environment override extraction (`_get_env_overrides`) -/

/-- `overrides.setdefault(k1, {})[k2] = v`: insert an empty dict at `k1`
when absent, then set `k2` inside it.  (In the source this is only ever
applied where the value at `k1`, if present, is a dict the same code put
there; the non-dict fallback case is unreachable.) -/
def setIn2 (d : Dict) (k1 k2 : String) (v : Value) : Dict :=
  match dget d k1 with
  | some (Value.dict e) => dset d k1 (Value.dict (dset e k2 v))
  | _ => dset d k1 (Value.dict [(k2, v)])

/-- `overrides.setdefault(k1, {}).setdefault(k2, {})[k3] = v` (used for the
per-service api rate limits). -/
def setIn3 (d : Dict) (k1 k2 k3 : String) (v : Value) : Dict :=
  match dget d k1 with
  | some (Value.dict e) => dset d k1 (Value.dict (setIn2 e k2 k3 v))
  | _ => dset d k1 (Value.dict [(k2, Value.dict [(k3, v)])])

/-- One string-valued override block:
`if os.getenv(var): overrides.setdefault(k1, {})[k2] = os.getenv(var)`. -/
def strStep (env : Env) (var k1 k2 : String) (ov : Dict) : Dict :=
  if truthy (eget env var) then setIn2 ov k1 k2 (Value.str (egetS env var)) else ov

/-- One integer-valued override block:
`if os.getenv(var): overrides.setdefault(k1, {})[k2] = int(os.getenv(var))`;
`int()` raising ValueError on an unparseable string is the coercion
failure. -/
def intStep (env : Env) (var k1 k2 : String) (ov : Dict) : Except LoadError Dict :=
  if truthy (eget env var) then
    match pyInt? (egetS env var) with
    | some n => Except.ok (setIn2 ov k1 k2 (Value.int n))
    | Option.none => Except.error (LoadError.coercionError var (egetS env var))
  else Except.ok ov

/-- The DEBUG override block:
`overrides.setdefault("server", {})["debug"] = os.getenv(...).lower() == "true"`. -/
def debugStep (env : Env) (ov : Dict) : Dict :=
  if truthy (eget env "OPENEDU_MCP_DEBUG") then
    setIn2 ov "server" "debug"
      (Value.bool (pyLower (egetS env "OPENEDU_MCP_DEBUG") == "true"))
  else ov

/-- One api rate-limit override block:
`overrides.setdefault("apis", {}).setdefault(svc, {})["rate_limit"] = int(...)`. -/
def rateStep (env : Env) (var svc : String) (ov : Dict) : Except LoadError Dict :=
  if truthy (eget env var) then
    match pyInt? (egetS env var) with
    | some n => Except.ok (setIn3 ov "apis" svc "rate_limit" (Value.int n))
    | Option.none => Except.error (LoadError.coercionError var (egetS env var))
  else Except.ok ov

/-- `_get_env_overrides()`: build the override dict from the nine
environment variables, in source order; an unparseable integer variable
aborts with a coercion error. -/
def envOverrides (env : Env) : Except LoadError Dict :=
  Except.bind
    (intStep env "OPENEDU_MCP_PORT" "server" "port"
      (strStep env "OPENEDU_MCP_HOST" "server" "host" [])) fun o2 =>
  Except.bind
    (intStep env "OPENEDU_MCP_CACHE_TTL" "cache" "default_ttl"
      (strStep env "OPENEDU_MCP_CACHE_PATH" "cache" "database_path"
        (debugStep env
          (strStep env "OPENEDU_MCP_LOG_LEVEL" "server" "log_level" o2)))) fun o6 =>
  Except.bind
    (intStep env "OPENEDU_MCP_CACHE_MAX_SIZE_MB" "cache" "max_size_mb" o6) fun o7 =>
  Except.bind
    (rateStep env "OPENEDU_MCP_OPEN_LIBRARY_RATE_LIMIT" "open_library" o7) fun o8 =>
  Except.bind
    (rateStep env "OPENEDU_MCP_WIKIPEDIA_RATE_LIMIT" "wikipedia" o8) fun o9 =>
  Except.ok o9

/-- `load_config`, from the point where the optional YAML file has been
read and parsed: `fileData` is the parsed top-level mapping (the empty dict
when no file was resolved, or when the document was empty).  Environment
overrides are computed, deep-merged over the file data (overrides win), and
the result is handed to `Config.from_dict`. -/
def loadConfig (fileData : Dict) (env : Env) : Except LoadError Config :=
  Except.bind (envOverrides env) fun ov =>
  fromDict (mergeConfigs fileData ov)

/-! ## A heap model of `_merge_configs` for the purity claim

Python dicts are mutable heap objects, so "the merge does not mutate its
inputs" is a statement about a heap.  Here a dict is an address into a
store of objects; object fields hold either a non-dict value (`prim`) or a
reference to another dict.  `result = base.copy()` allocates a fresh
object with the same (shallow) entries; `result[key] = v` mutates only the
freshly allocated object.  Recursion is fuelled, since the heap
representation cannot exclude cyclic references by typing alone. -/
inductive HVal where
  | prim (v : Value)
  | ref (a : Nat)

/-- A dict object in the store. -/
abbrev HObj := List (String × HVal)

/-- The store of dict objects; an address is an index. -/
structure Heap where
  objs : List HObj

/-- Dereference an address (out-of-range addresses, which cannot arise in
the source, read as an empty object). -/
def hObj (h : Heap) (a : Nat) : HObj := h.objs.getD a []

/-- First-match lookup in a dict object. -/
def oget : HObj → String → Option HVal
  | [], _ => Option.none
  | (k', v) :: o, k => if k' = k then some v else oget o k

/-- In-place update of a dict object. -/
def oset : HObj → String → HVal → HObj
  | [], k, v => [(k, v)]
  | (k', v') :: o, k, v => if k' = k then (k', v) :: o else (k', v') :: oset o k v

/-- One iteration of the `for key, value in override.items()` loop of
`_merge_configs`, acting on the freshly allocated `result` object at
address `r`; `isinstance(x, dict)` is "x is a `ref`". -/
def mergeStepH (recur : Nat → Nat → Heap → Option (Nat × Heap))
    (r : Nat) (acc : Option Heap) (kv : String × HVal) : Option Heap :=
  match acc with
  | Option.none => Option.none
  | some h =>
    match oget (hObj h r) kv.1, kv.2 with
    | some (HVal.ref ba), HVal.ref oa =>
      match recur ba oa h with
      | Option.none => Option.none
      | some (m, h') => some ⟨h'.objs.set r (oset (hObj h' r) kv.1 (HVal.ref m))⟩
    | _, _ => some ⟨h.objs.set r (oset (hObj h r) kv.1 kv.2)⟩

/-- `_merge_configs(base, override)` on the heap: copy `base` into a fresh
object `r`, then fold the loop body over `override`'s entries.  Returns
the address of the result and the new heap, or `Option.none` when the fuel
runs out. -/
def mergeH : Nat → Nat → Nat → Heap → Option (Nat × Heap)
  | 0, _, _, _ => Option.none
  | fuel + 1, base, ov, h =>
    let r := h.objs.length
    let h1 : Heap := ⟨h.objs ++ [hObj h base]⟩
    ((hObj h1 ov).foldl (mergeStepH (mergeH fuel) r) (some h1)).map (fun h' => (r, h'))

/-! ## Derived notions and concrete inputs used by the verification -/

/-- Two-level lookup: the value at `k2` inside the dict stored at `k1`,
when the value at `k1` is a dict. -/
def dget2 (d : Dict) (k1 k2 : String) : Option Value :=
  match dget d k1 with
  | some (Value.dict e) => dget e k2
  | _ => Option.none

/-- Does a loader result consist of a coercion (`int()`) failure? -/
def isCoercion : Except LoadError Config → Bool
  | Except.error (LoadError.coercionError _ _) => true
  | _ => false

/-- The six top-level section keys read by `Config.from_dict`. -/
def sectionNames : List String :=
  ["server", "cache", "apis", "education", "logging", "monitoring"]

/-- The five integer-coerced override variables of `_get_env_overrides`. -/
def intVarNames : List String :=
  ["OPENEDU_MCP_PORT", "OPENEDU_MCP_CACHE_TTL", "OPENEDU_MCP_CACHE_MAX_SIZE_MB",
   "OPENEDU_MCP_OPEN_LIBRARY_RATE_LIMIT", "OPENEDU_MCP_WIKIPEDIA_RATE_LIMIT"]

/-- All nine override variables of `_get_env_overrides`. -/
def envVarNames : List String :=
  ["OPENEDU_MCP_HOST", "OPENEDU_MCP_PORT", "OPENEDU_MCP_LOG_LEVEL", "OPENEDU_MCP_DEBUG",
   "OPENEDU_MCP_CACHE_PATH", "OPENEDU_MCP_CACHE_TTL", "OPENEDU_MCP_CACHE_MAX_SIZE_MB",
   "OPENEDU_MCP_OPEN_LIBRARY_RATE_LIMIT", "OPENEDU_MCP_WIKIPEDIA_RATE_LIMIT"]

/-- The weakest well-formedness of an override dict the proofs need: the
top-level keys are unique, and the `server` entry, when it is a dict, has
unique keys.  Every dict `_get_env_overrides` can build satisfies this. -/
def serverWf (d : Dict) : Prop :=
  (dkeys d).Nodup ∧ ∀ e, dget d "server" = some (Value.dict e) → (dkeys e).Nodup

/-- A fully specified `apis` section (all four services with their three
required arguments), needed for any successful `from_dict`. -/
def apisFullValue : Value :=
  Value.dict
    [("open_library", Value.dict
       [("base_url", Value.str "https://openlibrary.org"), ("rate_limit", Value.int 100),
        ("timeout", Value.int 30)]),
     ("wikipedia", Value.dict
       [("base_url", Value.str "https://en.wikipedia.org/api/rest_v1"),
        ("rate_limit", Value.int 200), ("timeout", Value.int 30),
        ("retry_attempts", Value.int 2)]),
     ("dictionary", Value.dict
       [("base_url", Value.str "https://api.dictionaryapi.dev/api/v2"),
        ("rate_limit", Value.int 450), ("timeout", Value.int 15)]),
     ("arxiv", Value.dict
       [("base_url", Value.str "http://export.arxiv.org/api"), ("rate_limit", Value.int 3),
        ("timeout", Value.int 60)])]

/-- A file mapping with only the `apis` section (education absent). -/
def apisOnlyInput : Dict := [("apis", apisFullValue)]

/-- A file mapping setting `server.port = 9000` (plus the required apis). -/
def portFileInput : Dict :=
  [("server", Value.dict [("port", Value.int 9000)]), ("apis", apisFullValue)]

/-- An environment setting only the port override, to `"7000"`. -/
def portEnv : Env := [("OPENEDU_MCP_PORT", "7000")]

/-- A file mapping setting `server.debug = true` (plus the required apis). -/
def debugTrueFile : Dict :=
  [("server", Value.dict [("debug", Value.bool true)]), ("apis", apisFullValue)]

/-- An environment whose DEBUG variable is set to the empty string. -/
def debugEmptyEnv : Env := [("OPENEDU_MCP_DEBUG", "")]

/-- An environment whose DEBUG variable is set to `"TRUE"`. -/
def debugTrueEnv : Env := [("OPENEDU_MCP_DEBUG", "TRUE")]

/-- An environment setting only the cache TTL override, to a non-numeric
string. -/
def badTtlEnv : Env := [("OPENEDU_MCP_CACHE_TTL", "soon")]

/-- An environment whose port override is set to the empty string. -/
def emptyPortEnv : Env := [("OPENEDU_MCP_PORT", "")]

/-- A placeholder configuration used as the fallback when reading a loader
result known to be successful. -/
def emptyConfig : Config :=
  { server :=
      { name := Value.none, version := Value.none, host := Value.none, port := Value.none,
        log_level := Value.none, debug := Value.none }
    cache :=
      { database_path := Value.none, default_ttl := Value.none, max_size_mb := Value.none,
        cleanup_interval := Value.none, enable_compression := Value.none }
    apis :=
      { open_library :=
          { base_url := Value.none, rate_limit := Value.none, timeout := Value.none,
            retry_attempts := Value.none, backoff_factor := Value.none }
        wikipedia :=
          { base_url := Value.none, rate_limit := Value.none, timeout := Value.none,
            retry_attempts := Value.none, backoff_factor := Value.none }
        dictionary :=
          { base_url := Value.none, rate_limit := Value.none, timeout := Value.none,
            retry_attempts := Value.none, backoff_factor := Value.none }
        arxiv :=
          { base_url := Value.none, rate_limit := Value.none, timeout := Value.none,
            retry_attempts := Value.none, backoff_factor := Value.none } }
    education :=
      { grade_levels := Value.none, curriculum_standards := Value.none,
        subjects := Value.none,
        content_filters :=
          { enable_age_appropriate := Value.none, enable_curriculum_alignment := Value.none,
            min_educational_relevance := Value.none } }
    logging :=
      { level := Value.none, format := Value.none, file_path := Value.none,
        max_file_size_mb := Value.none, backup_count := Value.none }
    monitoring :=
      { enable_metrics := Value.none, metrics_port := Value.none,
        health_check_interval := Value.none } }

/-- Read a successful loader result (fallback for the error case). -/
def okOr (r : Except LoadError Config) (d : Config) : Config :=
  match r with
  | Except.ok c => c
  | Except.error _ => d

/-- The configuration loaded from `portFileInput` under `portEnv`. -/
def cfgPort : Config := okOr (loadConfig portFileInput portEnv) emptyConfig

/-- The configuration loaded from `apisOnlyInput` under `debugTrueEnv`. -/
def cfgDebug : Config := okOr (loadConfig apisOnlyInput debugTrueEnv) emptyConfig

/-- The configuration loaded from `apisOnlyInput` with no environment. -/
def cfgRound : Config := okOr (loadConfig apisOnlyInput []) emptyConfig

/-- A two-object heap used to exercise the heap merge: address 0 holds
`{"a": 1}`, address 1 holds `{"a": 2, "b": None}`. -/
def heapInit : Heap :=
  ⟨[[("a", HVal.prim (Value.int 1))],
    [("a", HVal.prim (Value.int 2)), ("b", HVal.prim Value.none)]]⟩

/-- The heap after merging address 0 with address 1: one fresh object is
allocated, the two inputs are untouched. -/
def heapFinal : Heap :=
  ⟨[[("a", HVal.prim (Value.int 1))],
    [("a", HVal.prim (Value.int 2)), ("b", HVal.prim Value.none)],
    [("a", HVal.prim (Value.int 2)), ("b", HVal.prim Value.none)]]⟩

/-! ## Basic association-list laws -/

/-- Lookup after an in-place set at the same key. -/
theorem dget_dset_self (d : Dict) (k : String) (v : Value) :
    dget (dset d k v) k = some v := by
  induction d with
  | nil => simp [dget, dset]
  | cons p d ih =>
    obtain ⟨k', v'⟩ := p
    by_cases h : k' = k
    · simp [dget, dset, h]
    · simp [dget, dset, h, ih]

/-- Lookup after an in-place set at a different key. -/
theorem dget_dset_ne (d : Dict) (k k' : String) (v : Value) (h : k' ≠ k) :
    dget (dset d k' v) k = dget d k := by
  induction d with
  | nil => simp [dget, dset, h]
  | cons p d ih =>
    obtain ⟨k0, v0⟩ := p
    by_cases h0 : k0 = k'
    · simp [dget, dset, h0, h]
    · simp only [dset, if_neg h0]
      by_cases h1 : k0 = k
      · simp [dget, h1]
      · simp [dget, h1, ih]

/-- A key outside the key list looks up to nothing. -/
theorem dget_none_of_not_mem (d : Dict) (k : String) (h : ¬ k ∈ dkeys d) :
    dget d k = Option.none := by
  induction d with
  | nil => rfl
  | cons p d ih =>
    obtain ⟨k0, v0⟩ := p
    simp only [dkeys, List.map_cons, List.mem_cons, not_or] at h
    simp only [dget, if_neg (fun hh : k0 = k => h.1 hh.symm)]
    exact ih h.2

/-- Prepending a pair with an unrelated key does not change a lookup. -/
theorem dget_cons_ne (d : Dict) (k0 k : String) (v : Value) (h : k0 ≠ k) :
    dget ((k0, v) :: d) k = dget d k := by
  simp [dget, h]

/-- Membership in the keys of a set dict. -/
theorem mem_dkeys_dset (d : Dict) (k k' : String) (v : Value) :
    k' ∈ dkeys (dset d k v) → k' = k ∨ k' ∈ dkeys d := by
  induction d with
  | nil =>
    intro h
    simp only [dset, dkeys, List.map_cons, List.map_nil, List.mem_cons,
      List.not_mem_nil, or_false] at h
    exact Or.inl h
  | cons p d ih =>
    obtain ⟨k0, v0⟩ := p
    intro h
    simp only [dset] at h
    by_cases h0 : k0 = k
    · rw [if_pos h0] at h
      simp only [dkeys, List.map_cons, List.mem_cons] at h ⊢
      exact Or.inr h
    · rw [if_neg h0] at h
      simp only [dkeys, List.map_cons, List.mem_cons] at h ⊢
      rcases h with h | h
      · exact Or.inr (Or.inl h)
      · rcases ih h with h' | h'
        · exact Or.inl h'
        · exact Or.inr (Or.inr h')

/-- An in-place set preserves uniqueness of keys. -/
theorem nodup_dkeys_dset (d : Dict) (k : String) (v : Value)
    (h : (dkeys d).Nodup) : (dkeys (dset d k v)).Nodup := by
  induction d with
  | nil => simp [dset, dkeys]
  | cons p d ih =>
    obtain ⟨k0, v0⟩ := p
    simp only [dkeys, List.map_cons, List.nodup_cons] at h
    by_cases h0 : k0 = k
    · simp only [dset, if_pos h0, dkeys, List.map_cons, List.nodup_cons]
      exact ⟨h.1, h.2⟩
    · simp only [dset, if_neg h0, dkeys, List.map_cons, List.nodup_cons]
      refine ⟨fun hmem => ?_, ih h.2⟩
      rcases mem_dkeys_dset d k k0 v hmem with h' | h'
      · exact h0 h'
      · exact h.1 h'

/-! ## `Except.bind` inversion -/

/-- A bound computation succeeds exactly when both stages succeed. -/
theorem except_bind_ok {ε α β : Type} (x : Except ε α) (f : α → Except ε β) (b : β) :
    Except.bind x f = Except.ok b ↔ ∃ a, x = Except.ok a ∧ f a = Except.ok b := by
  cases x with
  | ok a =>
    constructor
    · intro h
      exact ⟨a, rfl, h⟩
    · rintro ⟨a', ha', hf⟩
      cases ha'
      exact hf
  | error e =>
    constructor
    · intro h
      cases h
    · rintro ⟨a', ha', _⟩
      cases ha'

/-- A bound computation fails exactly when a stage fails. -/
theorem except_bind_error {ε α β : Type} (x : Except ε α) (f : α → Except ε β) (e : ε) :
    Except.bind x f = Except.error e ↔
      x = Except.error e ∨ ∃ a, x = Except.ok a ∧ f a = Except.error e := by
  cases x with
  | ok a =>
    constructor
    · intro h
      exact Or.inr ⟨a, rfl, h⟩
    · rintro (h | ⟨a', ha', hf⟩)
      · cases h
      · cases ha'
        exact hf
  | error e' =>
    constructor
    · intro h
      cases h
      exact Or.inl rfl
    · rintro (h | ⟨a', ha', _⟩)
      · cases h
        rfl
      · cases ha'

/-! ## The merge specification (claim C5's core lemma) -/

/-- One loop body step leaves lookups at other keys unchanged. -/
theorem mergeKey_dget_ne (b : Dict) (k0 k : String) (v0 : Value) (h : k0 ≠ k) :
    dget (mergeKey b k0 v0) k = dget b k := by
  cases v0 with
  | dict od =>
    simp only [mergeKey]
    cases hb : dget b k0 with
    | none => simp [dget_dset_ne _ _ _ _ h]
    | some w =>
      cases w <;> simp [dget_dset_ne _ _ _ _ h]
  | none => simp [mergeKey, dget_dset_ne _ _ _ _ h]
  | bool b' => simp [mergeKey, dget_dset_ne _ _ _ _ h]
  | int n => simp [mergeKey, dget_dset_ne _ _ _ _ h]
  | float q => simp [mergeKey, dget_dset_ne _ _ _ _ h]
  | str s => simp [mergeKey, dget_dset_ne _ _ _ _ h]
  | list xs => simp [mergeKey, dget_dset_ne _ _ _ _ h]

/-- Pointwise behaviour of `_merge_configs` at each key, for an override
with unique keys (Python dicts always have unique keys): an absent
override key leaves the base lookup unchanged; a dict-on-dict collision
merges recursively; anything else is replaced wholesale by the override
value. -/
theorem merge_spec (ov : Dict) : ∀ (base : Dict), (dkeys ov).Nodup → ∀ k : String,
    (dget ov k = Option.none → dget (mergeConfigs base ov) k = dget base k)
  ∧ (∀ v bd od, dget ov k = some v → dget base k = some (Value.dict bd) →
      v = Value.dict od →
      dget (mergeConfigs base ov) k = some (Value.dict (mergeConfigs bd od)))
  ∧ (∀ v, dget ov k = some v →
      ((dget base k).bind Value.asDict = Option.none ∨ v.asDict = Option.none) →
      dget (mergeConfigs base ov) k = some v) := by
  induction ov with
  | nil =>
    intro base _ k
    refine ⟨fun _ => rfl, fun v bd od hv _ _ => ?_, fun v hv _ => ?_⟩
    · cases hv
    · cases hv
  | cons p rest ih =>
    obtain ⟨k0, v0⟩ := p
    intro base hnd k
    simp only [dkeys, List.map_cons, List.nodup_cons] at hnd
    obtain ⟨hk0, hrest⟩ := hnd
    by_cases hk : k0 = k
    · subst hk
      have hr0 : dget rest k0 = Option.none :=
        dget_none_of_not_mem rest k0 hk0
      have hfront := (ih (mergeKey base k0 v0) hrest k0).1 hr0
      have hov : dget ((k0, v0) :: rest) k0 = some v0 := by simp [dget]
      refine ⟨fun hc => ?_, fun v bd od hv hb hvd => ?_, fun v hv hguard => ?_⟩
      · rw [hov] at hc
        cases hc
      · rw [hov] at hv
        cases hv
        subst hvd
        show dget (mergeConfigs (mergeKey base k0 (Value.dict od)) rest) k0 = _
        rw [hfront]
        simp only [mergeKey, hb]
        exact dget_dset_self _ _ _
      · rw [hov] at hv
        cases hv
        show dget (mergeConfigs (mergeKey base k0 v0) rest) k0 = some v0
        rw [hfront]
        cases v0 with
        | dict od =>
          rcases hguard with hg | hg
          · simp only [mergeKey]
            cases hb : dget base k0 with
            | none => exact dget_dset_self _ _ _
            | some w =>
              rw [hb] at hg
              cases w <;> first
                | (exact dget_dset_self _ _ _)
                | (exact absurd hg (by simp [Value.asDict, Option.bind]))
          · exact absurd hg (by simp [Value.asDict])
        | none => exact dget_dset_self _ _ _
        | bool b' => exact dget_dset_self _ _ _
        | int n => exact dget_dset_self _ _ _
        | float q => exact dget_dset_self _ _ _
        | str s => exact dget_dset_self _ _ _
        | list xs => exact dget_dset_self _ _ _
    · have hov : dget ((k0, v0) :: rest) k = dget rest k := dget_cons_ne _ _ _ _ hk
      have hbase : dget (mergeKey base k0 v0) k = dget base k := mergeKey_dget_ne _ _ _ _ hk
      have hih := ih (mergeKey base k0 v0) hrest k
      refine ⟨fun hc => ?_, fun v bd od hv hb hvd => ?_, fun v hv hguard => ?_⟩
      · rw [hov] at hc
        have := hih.1 hc
        rw [hbase] at this
        exact this
      · rw [hov] at hv
        rw [← hbase] at hb
        exact hih.2.1 v bd od hv hb hvd
      · rw [hov] at hv
        rw [← hbase] at hguard
        exact hih.2.2 v hv hguard

/-! ## Two-level lookup laws for the override builders -/

/-- Two-level lookup through a known dict entry. -/
theorem dget2_of_entry (d : Dict) (k1 k2 : String) (e : Dict)
    (h : dget d k1 = some (Value.dict e)) : dget2 d k1 k2 = dget e k2 := by
  unfold dget2
  rw [h]

/-- Two-level lookup after setting a dict value at the outer key. -/
theorem dget2_dset_dict (d : Dict) (k1 k2 : String) (x : Dict) :
    dget2 (dset d k1 (Value.dict x)) k1 k2 = dget x k2 :=
  dget2_of_entry _ _ _ _ (dget_dset_self d k1 _)

/-- Two-level lookup is unchanged by a set at a different outer key. -/
theorem dget2_dset_other (d : Dict) (k1 k1' k2' : String) (x : Value)
    (h : k1' ≠ k1) : dget2 (dset d k1 x) k1' k2' = dget2 d k1' k2' := by
  unfold dget2
  rw [dget_dset_ne d k1' k1 x (Ne.symm h)]

/-- `setIn2` stores its value where it says. -/
theorem setIn2_dget2_self (d : Dict) (k1 k2 : String) (v : Value) :
    dget2 (setIn2 d k1 k2 v) k1 k2 = some v := by
  unfold setIn2
  cases hd : dget d k1 with
  | none =>
    rw [dget2_dset_dict]
    simp [dget]
  | some w =>
    cases w <;> rw [dget2_dset_dict] <;>
      first
        | exact dget_dset_self _ k2 v
        | simp [dget]

/-- `setIn2` leaves every other two-level slot unchanged. -/
theorem setIn2_dget2_ne (d : Dict) (k1 k2 k1' k2' : String) (v : Value)
    (hne : k1' ≠ k1 ∨ k2' ≠ k2) :
    dget2 (setIn2 d k1 k2 v) k1' k2' = dget2 d k1' k2' := by
  by_cases hk1 : k1' = k1
  · subst hk1
    have hk2 : k2' ≠ k2 := by
      rcases hne with h | h
      · exact absurd rfl h
      · exact h
    have hk2' : ¬ k2 = k2' := fun hh => hk2 hh.symm
    unfold setIn2
    cases hd : dget d k1' with
    | none =>
      rw [dget2_dset_dict]
      unfold dget2
      rw [hd]
      simp [dget, hk2']
    | some w =>
      cases w with
      | dict e =>
        rw [dget2_dset_dict, dget_dset_ne e k2' k2 v (Ne.symm hk2),
          dget2_of_entry d k1' k2' e hd]
      | none =>
        rw [dget2_dset_dict]
        simp [dget2, dget, hd, hk2']
      | bool b =>
        rw [dget2_dset_dict]
        simp [dget2, dget, hd, hk2']
      | int n =>
        rw [dget2_dset_dict]
        simp [dget2, dget, hd, hk2']
      | float q =>
        rw [dget2_dset_dict]
        simp [dget2, dget, hd, hk2']
      | str s =>
        rw [dget2_dset_dict]
        simp [dget2, dget, hd, hk2']
      | list xs =>
        rw [dget2_dset_dict]
        simp [dget2, dget, hd, hk2']
  · unfold setIn2
    cases hd : dget d k1 with
    | none => exact dget2_dset_other d k1 k1' k2' _ hk1
    | some w => cases w <;> exact dget2_dset_other d k1 k1' k2' _ hk1

/-- `setIn3` leaves two-level slots under other outer keys unchanged. -/
theorem setIn3_dget2_ne (d : Dict) (k1 k2 k3 k1' k2' : String) (v : Value)
    (hne : k1' ≠ k1) :
    dget2 (setIn3 d k1 k2 k3 v) k1' k2' = dget2 d k1' k2' := by
  unfold setIn3
  cases hd : dget d k1 with
  | none => exact dget2_dset_other d k1 k1' k2' _ hne
  | some w => cases w <;> exact dget2_dset_other d k1 k1' k2' _ hne

/-! ## Well-formedness of the dicts `_get_env_overrides` builds -/

/-- The empty override dict is well formed. -/
theorem serverWf_nil : serverWf [] :=
  ⟨List.nodup_nil, fun _ h => by cases h⟩

/-- `setIn2` preserves well-formedness. -/
theorem setIn2_wf (d : Dict) (k1 k2 : String) (v : Value) (h : serverWf d) :
    serverWf (setIn2 d k1 k2 v) := by
  obtain ⟨hnd, hsv⟩ := h
  constructor
  · unfold setIn2
    cases dget d k1 with
    | none => exact nodup_dkeys_dset d k1 _ hnd
    | some w => cases w <;> exact nodup_dkeys_dset d k1 _ hnd
  · intro e he
    by_cases hk : k1 = "server"
    · subst hk
      unfold setIn2 at he
      cases hd : dget d "server" with
      | none =>
        rw [hd] at he
        rw [dget_dset_self] at he
        cases he
        simp [dkeys]
      | some w =>
        rw [hd] at he
        cases w with
        | dict e0 =>
          rw [dget_dset_self] at he
          cases he
          exact nodup_dkeys_dset e0 k2 v (hsv e0 hd)
        | none => rw [dget_dset_self] at he; cases he; simp [dkeys]
        | bool b => rw [dget_dset_self] at he; cases he; simp [dkeys]
        | int n => rw [dget_dset_self] at he; cases he; simp [dkeys]
        | float q => rw [dget_dset_self] at he; cases he; simp [dkeys]
        | str s => rw [dget_dset_self] at he; cases he; simp [dkeys]
        | list xs => rw [dget_dset_self] at he; cases he; simp [dkeys]
    · unfold setIn2 at he
      cases hd : dget d k1 with
      | none =>
        rw [hd, dget_dset_ne d "server" k1 _ hk] at he
        exact hsv e he
      | some w =>
        rw [hd] at he
        cases w <;> rw [dget_dset_ne d "server" k1 _ hk] at he <;> exact hsv e he

/-- `setIn3` at a non-`server` outer key preserves well-formedness. -/
theorem setIn3_wf (d : Dict) (k1 k2 k3 : String) (v : Value)
    (hk : k1 ≠ "server") (h : serverWf d) : serverWf (setIn3 d k1 k2 k3 v) := by
  obtain ⟨hnd, hsv⟩ := h
  constructor
  · unfold setIn3
    cases dget d k1 with
    | none => exact nodup_dkeys_dset d k1 _ hnd
    | some w => cases w <;> exact nodup_dkeys_dset d k1 _ hnd
  · intro e he
    unfold setIn3 at he
    cases hd : dget d k1 with
    | none =>
      rw [hd, dget_dset_ne d "server" k1 _ hk] at he
      exact hsv e he
    | some w =>
      rw [hd] at he
      cases w <;> rw [dget_dset_ne d "server" k1 _ hk] at he <;> exact hsv e he

/-! ## Behaviour of the override steps -/

/-- A set, non-empty variable passes the truthiness guard. -/
theorem truthy_of (env : Env) (var s : String)
    (hs : eget env var = some s) (hne : s ≠ "") : truthy (eget env var) = true := by
  rw [hs]
  simp [truthy]
  exact hne

/-- The observed string value of a set variable. -/
theorem egetS_of (env : Env) (var s : String)
    (hs : eget env var = some s) : egetS env var = s := by
  rw [egetS, hs]
  rfl

/-- A string step changes no other two-level slot. -/
theorem strStep_dget2 (env : Env) (var k1 k2 k1' k2' : String) (d : Dict)
    (hne : k1' ≠ k1 ∨ k2' ≠ k2) :
    dget2 (strStep env var k1 k2 d) k1' k2' = dget2 d k1' k2' := by
  unfold strStep
  by_cases ht : truthy (eget env var) = true
  · rw [if_pos ht]
    exact setIn2_dget2_ne d k1 k2 k1' k2' _ hne
  · rw [if_neg ht]

/-- A string step preserves well-formedness. -/
theorem strStep_wf (env : Env) (var k1 k2 : String) (d : Dict)
    (h : serverWf d) : serverWf (strStep env var k1 k2 d) := by
  unfold strStep
  by_cases ht : truthy (eget env var) = true
  · rw [if_pos ht]
    exact setIn2_wf d k1 k2 _ h
  · rw [if_neg ht]
    exact h

/-- The debug step changes no other two-level slot. -/
theorem debugStep_dget2 (env : Env) (k1' k2' : String) (d : Dict)
    (hne : k1' ≠ "server" ∨ k2' ≠ "debug") :
    dget2 (debugStep env d) k1' k2' = dget2 d k1' k2' := by
  unfold debugStep
  by_cases ht : truthy (eget env "OPENEDU_MCP_DEBUG") = true
  · rw [if_pos ht]
    exact setIn2_dget2_ne d "server" "debug" k1' k2' _ hne
  · rw [if_neg ht]

/-- The debug step preserves well-formedness. -/
theorem debugStep_wf (env : Env) (d : Dict)
    (h : serverWf d) : serverWf (debugStep env d) := by
  unfold debugStep
  by_cases ht : truthy (eget env "OPENEDU_MCP_DEBUG") = true
  · rw [if_pos ht]
    exact setIn2_wf d "server" "debug" _ h
  · rw [if_neg ht]
    exact h

/-- When the DEBUG variable passes the guard, the debug step stores the
lower-cased comparison against "true". -/
theorem debugStep_of_set (env : Env) (d : Dict)
    (ht : truthy (eget env "OPENEDU_MCP_DEBUG") = true) :
    debugStep env d
      = setIn2 d "server" "debug"
          (Value.bool (pyLower (egetS env "OPENEDU_MCP_DEBUG") == "true")) := by
  unfold debugStep
  rw [if_pos ht]

/-- What a successful integer step can be. -/
theorem intStep_ok_elim (env : Env) (var k1 k2 : String) (d d' : Dict)
    (h : intStep env var k1 k2 d = Except.ok d') :
    d' = d ∨ ∃ n, d' = setIn2 d k1 k2 (Value.int n) := by
  unfold intStep at h
  by_cases ht : truthy (eget env var) = true
  · rw [if_pos ht] at h
    cases hp : pyInt? (egetS env var) with
    | none =>
      rw [hp] at h
      cases h
    | some n =>
      rw [hp] at h
      cases h
      exact Or.inr ⟨n, rfl⟩
  · rw [if_neg ht] at h
    cases h
    exact Or.inl rfl

/-- A passing integer step stores the parsed integer. -/
theorem intStep_of_set (env : Env) (var k1 k2 : String) (d : Dict) (n : Int)
    (ht : truthy (eget env var) = true) (hp : pyInt? (egetS env var) = some n) :
    intStep env var k1 k2 d = Except.ok (setIn2 d k1 k2 (Value.int n)) := by
  unfold intStep
  rw [if_pos ht, hp]

/-- A guarded but unparseable integer step raises the coercion error. -/
theorem intStep_bad (env : Env) (var k1 k2 : String) (d : Dict)
    (ht : truthy (eget env var) = true) (hp : pyInt? (egetS env var) = Option.none) :
    intStep env var k1 k2 d
      = Except.error (LoadError.coercionError var (egetS env var)) := by
  unfold intStep
  rw [if_pos ht, hp]

/-- The only error an integer step raises is its coercion error. -/
theorem intStep_error_elim (env : Env) (var k1 k2 : String) (d : Dict)
    (e : LoadError) (h : intStep env var k1 k2 d = Except.error e) :
    ∃ vl, e = LoadError.coercionError var vl := by
  unfold intStep at h
  by_cases ht : truthy (eget env var) = true
  · rw [if_pos ht] at h
    cases hp : pyInt? (egetS env var) with
    | none =>
      rw [hp] at h
      cases h
      exact ⟨_, rfl⟩
    | some n =>
      rw [hp] at h
      cases h
  · rw [if_neg ht] at h
    cases h

/-- What a successful rate-limit step can be. -/
theorem rateStep_ok_elim (env : Env) (var svc : String) (d d' : Dict)
    (h : rateStep env var svc d = Except.ok d') :
    d' = d ∨ ∃ n, d' = setIn3 d "apis" svc "rate_limit" (Value.int n) := by
  unfold rateStep at h
  by_cases ht : truthy (eget env var) = true
  · rw [if_pos ht] at h
    cases hp : pyInt? (egetS env var) with
    | none =>
      rw [hp] at h
      cases h
    | some n =>
      rw [hp] at h
      cases h
      exact Or.inr ⟨n, rfl⟩
  · rw [if_neg ht] at h
    cases h
    exact Or.inl rfl

/-- A guarded but unparseable rate-limit step raises the coercion error. -/
theorem rateStep_bad (env : Env) (var svc : String) (d : Dict)
    (ht : truthy (eget env var) = true) (hp : pyInt? (egetS env var) = Option.none) :
    rateStep env var svc d
      = Except.error (LoadError.coercionError var (egetS env var)) := by
  unfold rateStep
  rw [if_pos ht, hp]

/-- The only error a rate-limit step raises is its coercion error. -/
theorem rateStep_error_elim (env : Env) (var svc : String) (d : Dict)
    (e : LoadError) (h : rateStep env var svc d = Except.error e) :
    ∃ vl, e = LoadError.coercionError var vl := by
  unfold rateStep at h
  by_cases ht : truthy (eget env var) = true
  · rw [if_pos ht] at h
    cases hp : pyInt? (egetS env var) with
    | none =>
      rw [hp] at h
      cases h
      exact ⟨_, rfl⟩
    | some n =>
      rw [hp] at h
      cases h
  · rw [if_neg ht] at h
    cases h

/-- A successful integer step changes no other two-level slot. -/
theorem intStep_dget2 (env : Env) (var k1 k2 k1' k2' : String) (d d' : Dict)
    (h : intStep env var k1 k2 d = Except.ok d') (hne : k1' ≠ k1 ∨ k2' ≠ k2) :
    dget2 d' k1' k2' = dget2 d k1' k2' := by
  rcases intStep_ok_elim env var k1 k2 d d' h with h' | ⟨n, h'⟩
  · rw [h']
  · rw [h']
    exact setIn2_dget2_ne d k1 k2 k1' k2' _ hne

/-- A successful integer step preserves well-formedness. -/
theorem intStep_wf (env : Env) (var k1 k2 : String) (d d' : Dict)
    (h : intStep env var k1 k2 d = Except.ok d') (hwf : serverWf d) : serverWf d' := by
  rcases intStep_ok_elim env var k1 k2 d d' h with h' | ⟨n, h'⟩
  · rw [h']
    exact hwf
  · rw [h']
    exact setIn2_wf d k1 k2 _ hwf

/-- A successful rate-limit step changes two-level slots under no other
outer key. -/
theorem rateStep_dget2 (env : Env) (var svc k1' k2' : String) (d d' : Dict)
    (h : rateStep env var svc d = Except.ok d') (hne : k1' ≠ "apis") :
    dget2 d' k1' k2' = dget2 d k1' k2' := by
  rcases rateStep_ok_elim env var svc d d' h with h' | ⟨n, h'⟩
  · rw [h']
  · rw [h']
    exact setIn3_dget2_ne d "apis" svc "rate_limit" k1' k2' _ hne

/-- A successful rate-limit step preserves well-formedness. -/
theorem rateStep_wf (env : Env) (var svc : String) (d d' : Dict)
    (h : rateStep env var svc d = Except.ok d') (hwf : serverWf d) : serverWf d' := by
  rcases rateStep_ok_elim env var svc d d' h with h' | ⟨n, h'⟩
  · rw [h']
    exact hwf
  · rw [h']
    exact setIn3_wf d "apis" svc "rate_limit" _ (by decide) hwf

/-! ## Characterizing successful override extraction -/

/-- Inversion of a successful `_get_env_overrides` run into its five
fallible stages. -/
theorem envOv_ok_inv (env : Env) (ov : Dict) (h : envOverrides env = Except.ok ov) :
    ∃ o2 o6 o7 o8,
      intStep env "OPENEDU_MCP_PORT" "server" "port"
          (strStep env "OPENEDU_MCP_HOST" "server" "host" []) = Except.ok o2
    ∧ intStep env "OPENEDU_MCP_CACHE_TTL" "cache" "default_ttl"
          (strStep env "OPENEDU_MCP_CACHE_PATH" "cache" "database_path"
            (debugStep env
              (strStep env "OPENEDU_MCP_LOG_LEVEL" "server" "log_level" o2))) = Except.ok o6
    ∧ intStep env "OPENEDU_MCP_CACHE_MAX_SIZE_MB" "cache" "max_size_mb" o6 = Except.ok o7
    ∧ rateStep env "OPENEDU_MCP_OPEN_LIBRARY_RATE_LIMIT" "open_library" o7 = Except.ok o8
    ∧ rateStep env "OPENEDU_MCP_WIKIPEDIA_RATE_LIMIT" "wikipedia" o8 = Except.ok ov := by
  unfold envOverrides at h
  simp only [except_bind_ok, Except.ok.injEq] at h
  obtain ⟨o2, h2, o6, h6, o7, h7, o8, h8, o9, h9, rfl⟩ := h
  exact ⟨o2, o6, o7, o8, h2, h6, h7, h8, h9⟩

/-- A successful extraction with the port variable set (non-empty) parses
it and records it under `server.port`; the result is well formed. -/
theorem envOv_ok_port (env : Env) (ov : Dict) (s : String)
    (h : envOverrides env = Except.ok ov)
    (hs : eget env "OPENEDU_MCP_PORT" = some s) (hne : s ≠ "") :
    ∃ n, pyInt? s = some n
      ∧ dget2 ov "server" "port" = some (Value.int n) ∧ serverWf ov := by
  obtain ⟨o2, o6, o7, o8, h2, h6, h7, h8, h9⟩ := envOv_ok_inv env ov h
  have ht : truthy (eget env "OPENEDU_MCP_PORT") = true := truthy_of env _ s hs hne
  have hes : egetS env "OPENEDU_MCP_PORT" = s := egetS_of env _ s hs
  cases hp : pyInt? s with
  | none =>
    rw [intStep_bad env _ "server" "port" _ ht (by rw [hes]; exact hp)] at h2
    cases h2
  | some n =>
    rw [intStep_of_set env _ "server" "port" _ n ht (by rw [hes]; exact hp)] at h2
    have ho2 : o2 = setIn2 (strStep env "OPENEDU_MCP_HOST" "server" "host" []) "server" "port"
        (Value.int n) := by
      cases h2
      rfl
    have hwf2 : serverWf o2 := by
      rw [ho2]
      exact setIn2_wf _ _ _ _ (strStep_wf env _ _ _ _ serverWf_nil)
    have hv2 : dget2 o2 "server" "port" = some (Value.int n) := by
      rw [ho2]
      exact setIn2_dget2_self _ _ _ _
    have hv3 : dget2 (strStep env "OPENEDU_MCP_LOG_LEVEL" "server" "log_level" o2)
        "server" "port" = some (Value.int n) := by
      rw [strStep_dget2 env _ _ _ _ _ o2 (Or.inr (by decide))]
      exact hv2
    have hv4 : dget2 (debugStep env
        (strStep env "OPENEDU_MCP_LOG_LEVEL" "server" "log_level" o2))
        "server" "port" = some (Value.int n) := by
      rw [debugStep_dget2 env _ _ _ (Or.inr (by decide))]
      exact hv3
    have hv5 : dget2 (strStep env "OPENEDU_MCP_CACHE_PATH" "cache" "database_path"
        (debugStep env (strStep env "OPENEDU_MCP_LOG_LEVEL" "server" "log_level" o2)))
        "server" "port" = some (Value.int n) := by
      rw [strStep_dget2 env _ _ _ _ _ _ (Or.inl (by decide))]
      exact hv4
    have hv6 : dget2 o6 "server" "port" = some (Value.int n) := by
      rw [intStep_dget2 env _ _ _ _ _ _ o6 h6 (Or.inl (by decide))]
      exact hv5
    have hv7 : dget2 o7 "server" "port" = some (Value.int n) := by
      rw [intStep_dget2 env _ _ _ _ _ o6 o7 h7 (Or.inl (by decide))]
      exact hv6
    have hv8 : dget2 o8 "server" "port" = some (Value.int n) := by
      rw [rateStep_dget2 env _ _ _ _ o7 o8 h8 (by decide)]
      exact hv7
    have hv9 : dget2 ov "server" "port" = some (Value.int n) := by
      rw [rateStep_dget2 env _ _ _ _ o8 ov h9 (by decide)]
      exact hv8
    have hwf9 : serverWf ov :=
      rateStep_wf env _ _ o8 ov h9
        (rateStep_wf env _ _ o7 o8 h8
          (intStep_wf env _ _ _ o6 o7 h7
            (intStep_wf env _ _ _ _ o6 h6
              (strStep_wf env _ _ _ _
                (debugStep_wf env _
                  (strStep_wf env _ _ _ _ hwf2))))))
    exact ⟨n, rfl, hv9, hwf9⟩

/-- A successful extraction with the DEBUG variable set (non-empty)
records the case-insensitive comparison with "true" under `server.debug`;
the result is well formed. -/
theorem envOv_ok_debug (env : Env) (ov : Dict) (s : String)
    (h : envOverrides env = Except.ok ov)
    (hs : eget env "OPENEDU_MCP_DEBUG" = some s) (hne : s ≠ "") :
    dget2 ov "server" "debug" = some (Value.bool (pyLower s == "true"))
      ∧ serverWf ov := by
  obtain ⟨o2, o6, o7, o8, h2, h6, h7, h8, h9⟩ := envOv_ok_inv env ov h
  have ht : truthy (eget env "OPENEDU_MCP_DEBUG") = true := truthy_of env _ s hs hne
  have hes : egetS env "OPENEDU_MCP_DEBUG" = s := egetS_of env _ s hs
  have hwf2 : serverWf o2 :=
    intStep_wf env _ _ _ _ o2 h2 (strStep_wf env _ _ _ _ serverWf_nil)
  have hdbg : debugStep env (strStep env "OPENEDU_MCP_LOG_LEVEL" "server" "log_level" o2)
      = setIn2 (strStep env "OPENEDU_MCP_LOG_LEVEL" "server" "log_level" o2)
          "server" "debug" (Value.bool (pyLower s == "true")) := by
    rw [debugStep_of_set env _ ht, hes]
  have hv4 : dget2 (debugStep env
      (strStep env "OPENEDU_MCP_LOG_LEVEL" "server" "log_level" o2))
      "server" "debug" = some (Value.bool (pyLower s == "true")) := by
    rw [hdbg]
    exact setIn2_dget2_self _ _ _ _
  have hv5 : dget2 (strStep env "OPENEDU_MCP_CACHE_PATH" "cache" "database_path"
      (debugStep env (strStep env "OPENEDU_MCP_LOG_LEVEL" "server" "log_level" o2)))
      "server" "debug" = some (Value.bool (pyLower s == "true")) := by
    rw [strStep_dget2 env _ _ _ _ _ _ (Or.inl (by decide))]
    exact hv4
  have hv6 : dget2 o6 "server" "debug" = some (Value.bool (pyLower s == "true")) := by
    rw [intStep_dget2 env _ _ _ _ _ _ o6 h6 (Or.inl (by decide))]
    exact hv5
  have hv7 : dget2 o7 "server" "debug" = some (Value.bool (pyLower s == "true")) := by
    rw [intStep_dget2 env _ _ _ _ _ o6 o7 h7 (Or.inl (by decide))]
    exact hv6
  have hv8 : dget2 o8 "server" "debug" = some (Value.bool (pyLower s == "true")) := by
    rw [rateStep_dget2 env _ _ _ _ o7 o8 h8 (by decide)]
    exact hv7
  have hv9 : dget2 ov "server" "debug" = some (Value.bool (pyLower s == "true")) := by
    rw [rateStep_dget2 env _ _ _ _ o8 ov h9 (by decide)]
    exact hv8
  have hwf9 : serverWf ov :=
    rateStep_wf env _ _ o8 ov h9
      (rateStep_wf env _ _ o7 o8 h8
        (intStep_wf env _ _ _ o6 o7 h7
          (intStep_wf env _ _ _ _ o6 h6
            (strStep_wf env _ _ _ _
              (debugStep_wf env _
                (strStep_wf env _ _ _ _ hwf2))))))
  exact ⟨hv9, hwf9⟩

/-! ## From override slot to merged mapping to constructed config -/

/-- Extract the inner dict behind a two-level lookup. -/
theorem dget2_some_elim (d : Dict) (k1 k2 : String) (val : Value)
    (h : dget2 d k1 k2 = some val) :
    ∃ e, dget d k1 = some (Value.dict e) ∧ dget e k2 = some val := by
  unfold dget2 at h
  cases hg : dget d k1 with
  | none =>
    rw [hg] at h
    cases h
  | some w =>
    rw [hg] at h
    cases w with
    | dict e => exact ⟨e, rfl, h⟩
    | none => cases h
    | bool b => cases h
    | int n => cases h
    | float q => cases h
    | str s => cases h
    | list xs => cases h

/-- A non-dict override value stored under `server.k2` survives the deep
merge with any file mapping: the merged mapping has a dict at `server`
whose `k2` entry is exactly the override value. -/
theorem merged_server_field (fd ov : Dict) (hwf : serverWf ov)
    (k2 : String) (val : Value)
    (hval : dget2 ov "server" k2 = some val) (hnd : val.asDict = Option.none) :
    ∃ sd, dget (mergeConfigs fd ov) "server" = some (Value.dict sd)
      ∧ dget sd k2 = some val := by
  obtain ⟨hnodup, hsv⟩ := hwf
  obtain ⟨sv, hgv, hsvk⟩ := dget2_some_elim ov "server" k2 val hval
  have hsvnd : (dkeys sv).Nodup := hsv sv hgv
  have spec := merge_spec ov fd hnodup "server"
  cases hb : dget fd "server" with
  | some w =>
    cases w with
    | dict bs =>
      have hmerged := spec.2.1 _ bs sv hgv hb rfl
      have inner := (merge_spec sv bs hsvnd k2).2.2 val hsvk (Or.inr hnd)
      exact ⟨mergeConfigs bs sv, hmerged, inner⟩
    | none =>
      have hm := spec.2.2 _ hgv (Or.inl (by rw [hb]; rfl))
      exact ⟨sv, hm, hsvk⟩
    | bool b =>
      have hm := spec.2.2 _ hgv (Or.inl (by rw [hb]; rfl))
      exact ⟨sv, hm, hsvk⟩
    | int n =>
      have hm := spec.2.2 _ hgv (Or.inl (by rw [hb]; rfl))
      exact ⟨sv, hm, hsvk⟩
    | float q =>
      have hm := spec.2.2 _ hgv (Or.inl (by rw [hb]; rfl))
      exact ⟨sv, hm, hsvk⟩
    | str s =>
      have hm := spec.2.2 _ hgv (Or.inl (by rw [hb]; rfl))
      exact ⟨sv, hm, hsvk⟩
    | list xs =>
      have hm := spec.2.2 _ hgv (Or.inl (by rw [hb]; rfl))
      exact ⟨sv, hm, hsvk⟩
  | none =>
    have hm := spec.2.2 _ hgv (Or.inl (by rw [hb]; rfl))
    exact ⟨sv, hm, hsvk⟩

/-- When `from_dict` succeeds and the input stores a dict at `server`,
the server section is exactly `ServerConfig(**that dict)`. -/
theorem fromDict_ok_server (data : Dict) (c : Config) (sd : Dict)
    (h : fromDict data = Except.ok c)
    (hsd : dget data "server" = some (Value.dict sd)) :
    mkServerConfig sd = Except.ok c.server := by
  unfold fromDict at h
  simp only [except_bind_ok, Except.ok.injEq] at h
  obtain ⟨skw, hskw, srv, hsrv, ckw, hckw, cch, hcch, apisD, hapisD, olkw, holkw, ol, hol,
    wkw, hwkw, wik, hwik, dckw, hdckw, dc, hdc, axkw, haxkw, ax, hax, eduD, heduD,
    cfkw, hcfkw, cf, hcf, lkw, hlkw, lg, hlg, mkw, hmkw, mn, hmn, hfin⟩ := h
  have hdD : dgetD data "server" (Value.dict []) = Value.dict sd := by
    rw [dgetD, hsd]
    rfl
  rw [hdD] at hskw
  cases hskw
  rw [← hfin]
  exact hsrv

/-- The `port` and `debug` fields a successful `ServerConfig(**kw)` holds. -/
theorem mkServerConfig_ok_fields (kw : Dict) (srv : ServerConfig)
    (h : mkServerConfig kw = Except.ok srv) :
    srv.port = dgetD kw "port" (Value.int 8000)
      ∧ srv.debug = dgetD kw "debug" (Value.bool false) := by
  unfold mkServerConfig at h
  by_cases hall : (kw.all fun p => serverFields.contains p.1) = true
  · rw [if_pos hall] at h
    cases h
    exact ⟨rfl, rfl⟩
  · rw [if_neg hall] at h
    cases h

/-! ## Error analysis of override extraction -/

/-- Every error `_get_env_overrides` raises is a coercion error. -/
theorem envOv_error_coercion (env : Env) (e : LoadError)
    (h : envOverrides env = Except.error e) :
    ∃ va vl, e = LoadError.coercionError va vl := by
  unfold envOverrides at h
  simp only [except_bind_error] at h
  rcases h with h | ⟨o2, _, h⟩
  · obtain ⟨vl, rfl⟩ := intStep_error_elim env _ _ _ _ e h
    exact ⟨_, vl, rfl⟩
  · rcases h with h | ⟨o6, _, h⟩
    · obtain ⟨vl, rfl⟩ := intStep_error_elim env _ _ _ _ e h
      exact ⟨_, vl, rfl⟩
    · rcases h with h | ⟨o7, _, h⟩
      · obtain ⟨vl, rfl⟩ := intStep_error_elim env _ _ _ _ e h
        exact ⟨_, vl, rfl⟩
      · rcases h with h | ⟨o8, _, h⟩
        · obtain ⟨vl, rfl⟩ := rateStep_error_elim env _ _ _ e h
          exact ⟨_, vl, rfl⟩
        · rcases h with h | ⟨o9, _, h⟩
          · obtain ⟨vl, rfl⟩ := rateStep_error_elim env _ _ _ e h
            exact ⟨_, vl, rfl⟩
          · cases h

/-- With an integer override variable set to a non-empty unparseable
string, `_get_env_overrides` cannot succeed. -/
theorem envOv_bad_not_ok (env : Env) (va s : String)
    (hva : va ∈ intVarNames) (hs : eget env va = some s) (hne : s ≠ "")
    (hbad : pyInt? s = Option.none) :
    ∀ ov, envOverrides env ≠ Except.ok ov := by
  intro ov hok
  obtain ⟨o2, o6, o7, o8, h2, h6, h7, h8, h9⟩ := envOv_ok_inv env ov hok
  have ht : truthy (eget env va) = true := truthy_of env va s hs hne
  have hbad' : pyInt? (egetS env va) = Option.none := by
    rw [egetS_of env va s hs]
    exact hbad
  simp only [intVarNames, List.mem_cons, List.not_mem_nil, or_false] at hva
  rcases hva with rfl | rfl | rfl | rfl | rfl
  · rw [intStep_bad env _ "server" "port" _ ht hbad'] at h2
    cases h2
  · rw [intStep_bad env _ "cache" "default_ttl" _ ht hbad'] at h6
    cases h6
  · rw [intStep_bad env _ "cache" "max_size_mb" o6 ht hbad'] at h7
    cases h7
  · rw [rateStep_bad env _ "open_library" o7 ht hbad'] at h8
    cases h8
  · rw [rateStep_bad env _ "wikipedia" o8 ht hbad'] at h9
    cases h9

/-! ## Override extraction depends only on what the guards can see -/

/-- `_get_env_overrides` reads the environment only through truthiness
guards and guarded values, so two environments that differ only in
empty-versus-absent variables extract identically. -/
theorem envOverrides_env_congr (env1 env2 : Env)
    (hv : ∀ v, eget env1 v = eget env2 v
        ∨ (eget env1 v = some "" ∧ eget env2 v = Option.none)) :
    envOverrides env1 = envOverrides env2 := by
  have hva : ∀ v, truthy (eget env1 v) = truthy (eget env2 v)
      ∧ egetS env1 v = egetS env2 v := by
    intro v
    rcases hv v with h | ⟨h1, h2⟩
    · constructor
      · rw [h]
      · unfold egetS
        rw [h]
    · constructor
      · rw [h1, h2]
        rfl
      · unfold egetS
        rw [h1, h2]
        rfl
  have hstr : ∀ var k1 k2 ov, strStep env1 var k1 k2 ov = strStep env2 var k1 k2 ov := by
    intro var k1 k2 ov
    unfold strStep
    rw [(hva var).1, (hva var).2]
  have hint : ∀ var k1 k2 ov, intStep env1 var k1 k2 ov = intStep env2 var k1 k2 ov := by
    intro var k1 k2 ov
    unfold intStep
    rw [(hva var).1, (hva var).2]
  have hdbg : ∀ ov, debugStep env1 ov = debugStep env2 ov := by
    intro ov
    unfold debugStep
    rw [(hva "OPENEDU_MCP_DEBUG").1, (hva "OPENEDU_MCP_DEBUG").2]
  have hrate : ∀ var svc ov, rateStep env1 var svc ov = rateStep env2 var svc ov := by
    intro var svc ov
    unfold rateStep
    rw [(hva var).1, (hva var).2]
  unfold envOverrides
  simp only [hstr, hint, hdbg, hrate]

/-! ## Frame properties of the heap merge -/

/-- Reading another index after an in-place store. -/
theorem getD_set_ne (l : List HObj) (r i : Nat) (x : HObj) (h : i ≠ r) :
    (l.set r x).getD i [] = l.getD i [] := by
  induction l generalizing r i with
  | nil => rfl
  | cons a l ih =>
    cases r with
    | zero =>
      cases i with
      | zero => exact absurd rfl h
      | succ j => rfl
    | succ r' =>
      cases i with
      | zero => rfl
      | succ j => exact ih r' j (fun hh => h (by rw [hh]))

/-- Reading inside the original segment of an extended store. -/
theorem getD_append_lt (l l2 : List HObj) (i : Nat) (h : i < l.length) :
    (l ++ l2).getD i [] = l.getD i [] := by
  induction l generalizing i with
  | nil => cases h
  | cons a l ih =>
    cases i with
    | zero => rfl
    | succ j => exact ih j (Nat.lt_of_succ_lt_succ h)

/-- The loop body maps a dead accumulator to a dead accumulator, so a
dead accumulator stays dead across the fold. -/
theorem foldl_mergeStepH_none (f : Nat → Nat → Heap → Option (Nat × Heap)) (r : Nat)
    (items : List (String × HVal)) :
    List.foldl (mergeStepH f r) Option.none items = Option.none := by
  induction items with
  | nil => rfl
  | cons kv rest ih => exact ih

/-- Frame property of the merge loop: it only writes the freshly
allocated result object `r` and fresh allocations, leaving every other
pre-existing object untouched. -/
theorem mergeLoop_frame (fuel : Nat)
    (IH : ∀ b o h p, mergeH fuel b o h = some p →
      h.objs.length ≤ p.2.objs.length
        ∧ (∀ i, i < h.objs.length → p.2.objs.getD i [] = h.objs.getD i [])
        ∧ h.objs.length ≤ p.1) :
    ∀ (items : List (String × HVal)) (r : Nat) (h h' : Heap),
      List.foldl (mergeStepH (mergeH fuel) r) (some h) items = some h' →
      h.objs.length ≤ h'.objs.length
        ∧ ∀ i, i < h.objs.length → i ≠ r → h'.objs.getD i [] = h.objs.getD i [] := by
  intro items
  induction items with
  | nil =>
    intro r h h' hf
    cases hf
    exact ⟨Nat.le_refl _, fun i _ _ => rfl⟩
  | cons kv rest ih =>
    intro r h h' hf
    obtain ⟨k, v⟩ := kv
    rw [List.foldl_cons] at hf
    cases hstep : mergeStepH (mergeH fuel) r (some h) (k, v) with
    | none =>
      rw [hstep, foldl_mergeStepH_none] at hf
      cases hf
    | some h2 =>
      rw [hstep] at hf
      obtain ⟨hlen2, hpres2⟩ := ih r h2 h' hf
      have hh2 : h.objs.length ≤ h2.objs.length
          ∧ ∀ i, i < h.objs.length → i ≠ r → h2.objs.getD i [] = h.objs.getD i [] := by
        simp only [mergeStepH] at hstep
        cases hog : oget (hObj h r) k with
        | none =>
          rw [hog] at hstep
          cases v <;> cases hstep <;>
            exact ⟨Nat.le_of_eq (List.length_set _ _ _).symm,
              fun i _ hir => getD_set_ne _ r i _ hir⟩
        | some w =>
          rw [hog] at hstep
          cases w with
          | prim pv =>
            cases v <;> cases hstep <;>
              exact ⟨Nat.le_of_eq (List.length_set _ _ _).symm,
                fun i _ hir => getD_set_ne _ r i _ hir⟩
          | ref ba =>
            cases v with
            | prim pv =>
              cases hstep
              exact ⟨Nat.le_of_eq (List.length_set _ _ _).symm,
                fun i _ hir => getD_set_ne _ r i _ hir⟩
            | ref oa =>
              cases hm : mergeH fuel ba oa h with
              | none =>
                simp only [hm] at hstep
                cases hstep
              | some p3 =>
                obtain ⟨m, h3⟩ := p3
                simp only [hm, Option.some.injEq] at hstep
                subst hstep
                obtain ⟨hl3, hp3, _⟩ := IH ba oa h (m, h3) hm
                constructor
                · rw [List.length_set]
                  exact hl3
                · intro i hi hir
                  rw [getD_set_ne _ r i _ hir]
                  exact hp3 i hi
      refine ⟨Nat.le_trans hh2.1 hlen2, fun i hi hir => ?_⟩
      rw [hpres2 i (Nat.lt_of_lt_of_le hi hh2.1) hir]
      exact hh2.2 i hi hir

/-- Frame property of the heap merge: a successful `_merge_configs` run
leaves every pre-existing heap object exactly as it was (it mutates only
the freshly allocated copies), and the returned address is fresh. -/
theorem mergeH_frame : ∀ (fuel : Nat) (b o : Nat) (h : Heap) (p : Nat × Heap),
    mergeH fuel b o h = some p →
    h.objs.length ≤ p.2.objs.length
      ∧ (∀ i, i < h.objs.length → p.2.objs.getD i [] = h.objs.getD i [])
      ∧ h.objs.length ≤ p.1 := by
  intro fuel
  induction fuel with
  | zero =>
    intro b o h p hrun
    cases hrun
  | succ fuel ih =>
    intro b o h p hrun
    unfold mergeH at hrun
    rw [Option.map_eq_some'] at hrun
    obtain ⟨h', hf, rfl⟩ := hrun
    obtain ⟨hlen, hpres⟩ :=
      mergeLoop_frame fuel ih (hObj ⟨h.objs ++ [hObj h b]⟩ o) h.objs.length
        ⟨h.objs ++ [hObj h b]⟩ h' hf
    refine ⟨?_, fun i hi => ?_, Nat.le_refl _⟩
    · calc h.objs.length ≤ h.objs.length + 1 := Nat.le_succ _
        _ = (h.objs ++ [hObj h b]).length := by simp
        _ ≤ h'.objs.length := hlen
    · have hi1 : i < (h.objs ++ [hObj h b]).length := by
        simp
        omega
      rw [hpres i hi1 (Nat.ne_of_lt hi)]
      exact getD_append_lt h.objs [hObj h b] i hi

/-! ## Round-trip and unknown-key laws of the schema -/

/-- Re-parsing a serialized configuration reconstructs it exactly:
`to_dict` emits every field under its own key, and `from_dict` reads each
of them back (the defaults are never consulted because every key is
present). -/
theorem from_to_dict (c : Config) : fromDict (toDict c) = Except.ok c := rfl

/-- `d.get(k, default)` ignores a prepended pair with a different key. -/
theorem dgetD_cons_ne (d : Dict) (k0 k : String) (v dflt : Value) (h : k0 ≠ k) :
    dgetD ((k0, v) :: d) k dflt = dgetD d k dflt := by
  rw [dgetD, dgetD, dget_cons_ne d k0 k v h]

/-! ## The ten claims -/

/-- C1: the claim says `load_config` with no file and no override
variables succeeds and returns the all-defaults configuration.  The code
disagrees: `Config.from_dict({})` evaluates `APIConfig(**{})`, and
`APIConfig` has three required arguments (`base_url`, `rate_limit`,
`timeout`), so the empty load raises TypeError instead of using the
`APIsConfig` per-service default factories. -/
theorem load_config_empty_crashes :
    loadConfig [] []
      = Except.error (LoadError.typeError "APIConfig missing required positional arguments") :=
  rfl

/-- C2: the claim says the education lists default to the seed lists when
absent.  The code disagrees: `from_dict` passes
`data.get('education', {}).get(..., [])`, so with `education` absent each
list field is the empty list, not the seed default declared by the
`EducationConfig` dataclass factories. -/
theorem from_dict_education_lists_empty :
    (fromDict apisOnlyInput).toOption.map
        (fun c => (c.education.grade_levels, c.education.curriculum_standards,
          c.education.subjects))
      = some (Value.list [], Value.list [], Value.list [])
  ∧ Value.list [] ≠ Value.list defaultGradeLevels
  ∧ Value.list [] ≠ Value.list defaultCurriculumStandards
  ∧ Value.list [] ≠ Value.list defaultSubjects := by
  refine ⟨rfl, ?_, ?_, ?_⟩ <;>
    simp [defaultGradeLevels, defaultCurriculumStandards, defaultSubjects]

/-- C3 counterexample: an unknown key inside the recognized `server`
section makes `Config.from_dict` fail (dataclass construction raises
TypeError on an unexpected keyword argument) instead of being silently
ignored, so `from_dict` returns no Config at this input. -/
theorem from_dict_unknown_key_in_section_fails :
    (fromDict [("server", Value.dict [("bogus", Value.int 1)])]).toOption
      = Option.none :=
  rfl

/-- C3 amended: unknown keys at the TOP level of the mapping are ignored
silently (removing one never changes the result), but an unknown key
inside a recognized section is not ignored: it makes `from_dict` fail
with a TypeError. -/
theorem from_dict_unknown_keys_amended (k : String) (v : Value) (d : Dict)
    (hk : ¬ k ∈ sectionNames) :
    fromDict ((k, v) :: d) = fromDict d
  ∧ fromDict [("server", Value.dict [("unknown_option", Value.int 0)])]
      = Except.error (LoadError.typeError "ServerConfig got an unexpected keyword argument") := by
  simp only [sectionNames, List.mem_cons, List.not_mem_nil, or_false, not_or] at hk
  obtain ⟨h1, h2, h3, h4, h5, h6⟩ := hk
  constructor
  · unfold fromDict
    rw [dgetD_cons_ne d k "server" v _ h1, dgetD_cons_ne d k "cache" v _ h2,
      dgetD_cons_ne d k "apis" v _ h3, dgetD_cons_ne d k "education" v _ h4,
      dgetD_cons_ne d k "logging" v _ h5, dgetD_cons_ne d k "monitoring" v _ h6]
  · rfl

/-- C3 witness. -/
theorem from_dict_unknown_keys_amended_witness :
    ¬ "compatibility" ∈ sectionNames
  ∧ fromDict (("compatibility", Value.int 1) :: apisOnlyInput) = fromDict apisOnlyInput :=
  ⟨by decide,
    (from_dict_unknown_keys_amended "compatibility" (Value.int 1) apisOnlyInput (by decide)).1⟩

/-- C4: when the port override variable is set to `"7000"`, the loaded
configuration has `server.port == 7000` whatever the file mapping says
(in particular when it says 9000): the override dict wins the deep merge
at `server.port` and `from_dict` copies the merged value through. -/
theorem env_port_overrides_file (fd : Dict) (env : Env) (c : Config)
    (hport : eget env "OPENEDU_MCP_PORT" = some "7000")
    (hload : loadConfig fd env = Except.ok c) :
    c.server.port = Value.int 7000 := by
  unfold loadConfig at hload
  rw [except_bind_ok] at hload
  obtain ⟨ov, hov, hfd⟩ := hload
  obtain ⟨n, hn, hslot, hwf⟩ := envOv_ok_port env ov "7000" hov hport (by decide)
  have h7 : pyInt? "7000" = some 7000 := by decide
  rw [h7] at hn
  cases hn
  obtain ⟨sd, hsd, hval⟩ := merged_server_field fd ov hwf "port" (Value.int 7000) hslot rfl
  have hmk := fromDict_ok_server (mergeConfigs fd ov) c sd hfd hsd
  have hfld := (mkServerConfig_ok_fields sd c.server hmk).1
  rw [hfld, dgetD, hval]
  rfl

/-- C4 witness: the file sets `server.port = 9000`, the environment sets
the port variable to `"7000"`, and the loaded port is 7000. -/
theorem env_port_overrides_file_witness :
    eget portEnv "OPENEDU_MCP_PORT" = some "7000"
  ∧ loadConfig portFileInput portEnv = Except.ok cfgPort
  ∧ cfgPort.server.port = Value.int 7000 :=
  ⟨rfl, rfl, env_port_overrides_file portFileInput portEnv cfgPort rfl rfl⟩

/-- C5: pointwise semantics of `_merge_configs` for any override mapping
(unique keys, as Python dicts have): keys absent from the override keep
the base value; a key where both sides hold dicts gets the recursive
merge; any other overridden key gets the override value wholesale (lists
and scalars are replaced, never concatenated). -/
theorem merge_configs_key_semantics (base ov : Dict) (h : (dkeys ov).Nodup) (k : String) :
    (dget ov k = Option.none → dget (mergeConfigs base ov) k = dget base k)
  ∧ (∀ v bd od, dget ov k = some v → dget base k = some (Value.dict bd) →
      v = Value.dict od →
      dget (mergeConfigs base ov) k = some (Value.dict (mergeConfigs bd od)))
  ∧ (∀ v, dget ov k = some v →
      ((dget base k).bind Value.asDict = Option.none ∨ v.asDict = Option.none) →
      dget (mergeConfigs base ov) k = some v) :=
  merge_spec ov base h k

/-- C5 witness: a dict-on-dict key recurses, a base-only key is kept, and
a scalar override replaces. -/
theorem merge_configs_key_semantics_witness :
    (dkeys [("a", Value.dict [("x", Value.int 2)]), ("c", Value.int 7)]).Nodup
  ∧ dget (mergeConfigs
        [("a", Value.dict [("x", Value.int 1)]), ("b", Value.int 5)]
        [("a", Value.dict [("x", Value.int 2)]), ("c", Value.int 7)]) "a"
      = some (Value.dict (mergeConfigs [("x", Value.int 1)] [("x", Value.int 2)]))
  ∧ dget (mergeConfigs
        [("a", Value.dict [("x", Value.int 1)]), ("b", Value.int 5)]
        [("a", Value.dict [("x", Value.int 2)]), ("c", Value.int 7)]) "b"
      = dget [("a", Value.dict [("x", Value.int 1)]), ("b", Value.int 5)] "b"
  ∧ dget (mergeConfigs
        [("a", Value.dict [("x", Value.int 1)]), ("b", Value.int 5)]
        [("a", Value.dict [("x", Value.int 2)]), ("c", Value.int 7)]) "c"
      = some (Value.int 7) :=
  ⟨by decide,
    (merge_configs_key_semantics
      [("a", Value.dict [("x", Value.int 1)]), ("b", Value.int 5)]
      [("a", Value.dict [("x", Value.int 2)]), ("c", Value.int 7)] (by decide) "a").2.1
      (Value.dict [("x", Value.int 2)]) [("x", Value.int 1)] [("x", Value.int 2)] rfl rfl rfl,
    (merge_configs_key_semantics
      [("a", Value.dict [("x", Value.int 1)]), ("b", Value.int 5)]
      [("a", Value.dict [("x", Value.int 2)]), ("c", Value.int 7)] (by decide) "b").1 rfl,
    (merge_configs_key_semantics
      [("a", Value.dict [("x", Value.int 1)]), ("b", Value.int 5)]
      [("a", Value.dict [("x", Value.int 2)]), ("c", Value.int 7)] (by decide) "c").2.2
      (Value.int 7) rfl (Or.inl rfl)⟩

/-- C6: an integer-typed override variable set to a non-empty unparseable
string makes `load_config` fail with a coercion error (the `int()` call
raises at load time and no Config is returned), whatever the file data. -/
theorem load_config_coercion_error (fd : Dict) (env : Env) (va s : String)
    (hva : va ∈ intVarNames) (hs : eget env va = some s) (hne : s ≠ "")
    (hbad : pyInt? s = Option.none) :
    isCoercion (loadConfig fd env) = true := by
  unfold loadConfig
  cases hov : envOverrides env with
  | ok ov => exact absurd hov (envOv_bad_not_ok env va s hva hs hne hbad ov)
  | error e =>
    obtain ⟨va', vl, rfl⟩ := envOv_error_coercion env e hov
    rfl

/-- C6 witness: cache TTL set to `"soon"`. -/
theorem load_config_coercion_error_witness :
    "OPENEDU_MCP_CACHE_TTL" ∈ intVarNames
  ∧ eget badTtlEnv "OPENEDU_MCP_CACHE_TTL" = some "soon"
  ∧ ("soon" ≠ "")
  ∧ pyInt? "soon" = Option.none
  ∧ isCoercion (loadConfig [] badTtlEnv) = true :=
  ⟨by decide, rfl, by decide, by decide,
    load_config_coercion_error [] badTtlEnv "OPENEDU_MCP_CACHE_TTL" "soon"
      (by decide) rfl (by decide) (by decide)⟩

/-- C7 counterexample: with the DEBUG variable set to the empty string —
a string other than "true" — the loaded `server.debug` is NOT forced to
false: the empty string fails the `if os.getenv(...)` truthiness guard,
so the file value (here `true`) survives.  This falsifies "any other
string set in that variable yields false regardless of file contents". -/
theorem debug_empty_env_keeps_file_value :
    eget debugEmptyEnv "OPENEDU_MCP_DEBUG" = some ""
  ∧ (loadConfig debugTrueFile debugEmptyEnv).toOption.map (fun c => c.server.debug)
      = some (Value.bool true)
  ∧ (loadConfig debugTrueFile debugEmptyEnv).toOption.map (fun c => c.server.debug)
      ≠ some (Value.bool false) := by
  refine ⟨rfl, rfl, ?_⟩
  intro h
  rw [show (loadConfig debugTrueFile debugEmptyEnv).toOption.map (fun c => c.server.debug)
      = some (Value.bool true) from rfl] at h
  simp at h

/-- C7 amended: when the DEBUG variable is set to a NON-EMPTY string `s`,
the loaded `server.debug` is the boolean `s.lower() == "true"` (so
"true", "TRUE", "True" give true and any other non-empty string gives
false) regardless of file contents; the empty string instead behaves as
unset and leaves the file/default value in place. -/
theorem debug_env_coercion_amended (fd : Dict) (env : Env) (s : String) (c : Config)
    (hdbg : eget env "OPENEDU_MCP_DEBUG" = some s) (hne : s ≠ "")
    (hload : loadConfig fd env = Except.ok c) :
    c.server.debug = Value.bool (pyLower s == "true") := by
  unfold loadConfig at hload
  rw [except_bind_ok] at hload
  obtain ⟨ov, hov, hfd⟩ := hload
  obtain ⟨hslot, hwf⟩ := envOv_ok_debug env ov s hov hdbg hne
  obtain ⟨sd, hsd, hval⟩ :=
    merged_server_field fd ov hwf "debug" (Value.bool (pyLower s == "true")) hslot rfl
  have hmk := fromDict_ok_server (mergeConfigs fd ov) c sd hfd hsd
  have hfld := (mkServerConfig_ok_fields sd c.server hmk).2
  rw [hfld, dgetD, hval]
  rfl

/-- C7 witness: DEBUG set to `"TRUE"` loads `debug == true`. -/
theorem debug_env_coercion_amended_witness :
    eget debugTrueEnv "OPENEDU_MCP_DEBUG" = some "TRUE"
  ∧ ("TRUE" ≠ "")
  ∧ loadConfig apisOnlyInput debugTrueEnv = Except.ok cfgDebug
  ∧ cfgDebug.server.debug = Value.bool (pyLower "TRUE" == "true")
  ∧ (pyLower "TRUE" == "true") = true :=
  ⟨rfl, by decide, rfl,
    debug_env_coercion_amended apisOnlyInput debugTrueEnv "TRUE" cfgDebug rfl (by decide) rfl,
    by decide⟩

/-- C8: any configuration `load_config` produces round-trips:
`from_dict(to_dict(config)) == config`. -/
theorem load_config_round_trip (fd : Dict) (env : Env) (c : Config)
    (_hload : loadConfig fd env = Except.ok c) :
    fromDict (toDict c) = Except.ok c :=
  from_to_dict c

/-- C8 witness. -/
theorem load_config_round_trip_witness :
    loadConfig apisOnlyInput [] = Except.ok cfgRound
  ∧ fromDict (toDict cfgRound) = Except.ok cfgRound :=
  ⟨rfl, load_config_round_trip apisOnlyInput [] cfgRound rfl⟩

/-- C9: on the heap model, a successful `_merge_configs` run leaves the
`base` and `override` dict objects (indeed every pre-existing object)
exactly as they were — the merge mutates only its fresh copies — and the
run is deterministic: any two results of the same call are equal. -/
theorem merge_heap_purity (fuel b o : Nat) (h : Heap) (r : Nat) (h' : Heap)
    (hrun : mergeH fuel b o h = some (r, h')) :
    (b < h.objs.length → hObj h' b = hObj h b)
  ∧ (o < h.objs.length → hObj h' o = hObj h o)
  ∧ (∀ out1 out2, mergeH fuel b o h = out1 → mergeH fuel b o h = out2 → out1 = out2) := by
  obtain ⟨_, hpres, _⟩ := mergeH_frame fuel b o h (r, h') hrun
  refine ⟨fun hb => hpres b hb, fun ho => hpres o ho, fun o1 o2 h1 h2 => ?_⟩
  rw [← h1, ← h2]

/-- C9 witness: a concrete two-dict merge leaves both inputs unchanged. -/
theorem merge_heap_purity_witness :
    mergeH 3 0 1 heapInit = some (2, heapFinal)
  ∧ hObj heapFinal 0 = hObj heapInit 0
  ∧ hObj heapFinal 1 = hObj heapInit 1 :=
  ⟨rfl,
    (merge_heap_purity 3 0 1 heapInit 2 heapFinal rfl).1 (by decide),
    (merge_heap_purity 3 0 1 heapInit 2 heapFinal rfl).2.1 (by decide)⟩

/-- C10: an override variable set to the empty string behaves exactly as
if it were unset — it fails the truthiness guard, contributes no override
and raises no error (even for the integer-typed variables): extraction
and loading agree with any environment that differs only by dropping such
variables. -/
theorem empty_env_var_as_unset (n : String) (hn : n ∈ envVarNames)
    (env1 env2 : Env) (hset : eget env1 n = some "")
    (hunset : eget env2 n = Option.none)
    (hagree : ∀ k, k ≠ n → eget env1 k = eget env2 k) :
    envOverrides env1 = envOverrides env2
      ∧ ∀ fd, loadConfig fd env1 = loadConfig fd env2 := by
  have hv : ∀ v, eget env1 v = eget env2 v
      ∨ (eget env1 v = some "" ∧ eget env2 v = Option.none) := by
    intro v
    by_cases hvn : v = n
    · subst hvn
      exact Or.inr ⟨hset, hunset⟩
    · exact Or.inl (hagree v hvn)
  have h1 := envOverrides_env_congr env1 env2 hv
  refine ⟨h1, fun fd => ?_⟩
  unfold loadConfig
  rw [h1]

/-- C10 witness: the port variable set to `""` extracts and loads exactly
like the empty environment, error-free. -/
theorem empty_env_var_as_unset_witness :
    "OPENEDU_MCP_PORT" ∈ envVarNames
  ∧ eget emptyPortEnv "OPENEDU_MCP_PORT" = some ""
  ∧ envOverrides emptyPortEnv = envOverrides []
  ∧ envOverrides [] = Except.ok [] := by
  have hagree : ∀ k, k ≠ "OPENEDU_MCP_PORT" → eget emptyPortEnv k = eget [] k := by
    intro k hk
    show (if "OPENEDU_MCP_PORT" = k then some "" else eget [] k) = eget [] k
    rw [if_neg (fun hh => hk hh.symm)]
  exact ⟨by decide, rfl,
    (empty_env_var_as_unset "OPENEDU_MCP_PORT" (by decide) emptyPortEnv [] rfl rfl hagree).1,
    rfl⟩
